import Mathlib

/-!
Verification of the zeep-server parcel-delivery backend (Express + MongoDB).

The repository contains successive revisions of one service:
`src/index.js` and two revisions concatenated in `src/unnamed/part_000`.
This file shallowly embeds the route handlers as pure functions over an
explicit database state:

* MongoDB collections become Lean lists of documents.
* User and rider documents — which the code manipulates with dynamic
  `$set` updates, projections and spreads — are modelled as association
  lists from field names to string values (`Doc`).
* Parcel, payment and tracking documents, which the handlers access with
  a fixed field set, are modelled as structures.
* `ObjectId.isValid(s)` is modelled as "24-character hex string".
* The two-write MongoDB transaction in `POST /payments` is modelled by a
  body returning `Except` and a wrapper that restores the initial state on
  error; write faults are injected by explicit Boolean parameters.
* Firebase token verification is an oracle `String → Option Doc`.
* `new Date()` timestamps enter as explicit `now` arguments.
-/

/-- A MongoDB document with string-valued fields, as an association list.
Used for the `users` and `riders` collections, whose handlers apply
dynamic `$set` updates, spreads and projections. -/
abbrev Doc := List (String × String)

/-- Field lookup on a document (first binding wins, as in a JS object /
BSON document with unique keys). -/
def dget (d : Doc) (k : String) : Option String :=
  (d.find? (fun kv => kv.1 == k)).map (fun kv => kv.2)

/-- Set one field of a document, replacing any existing binding: models
both `$set` of one field and the JS spread `{...d, k: v}`. -/
def dset (d : Doc) (k v : String) : Doc :=
  d.filter (fun kv => kv.1 != k) ++ [(k, v)]

/-- Apply a `$set` update document: set every listed field. -/
def dsetAll (d : Doc) (fields : Doc) : Doc :=
  fields.foldl (fun acc kv => dset acc kv.1 kv.2) d

/-- `updateOne`: update the first document satisfying the filter; returns
the new list and the matched count (0 or 1). -/
def updateFirstBy (l : List Doc) (pred : Doc → Bool) (f : Doc → Doc) :
    List Doc × Nat :=
  match l with
  | [] => ([], 0)
  | d :: ds =>
    if pred d then (f d :: ds, 1)
    else
      let r := updateFirstBy ds pred f
      (d :: r.1, r.2)

/-- ASCII hexadecimal digit test. -/
def isHexChar (c : Char) : Bool :=
  ('0' ≤ c && c ≤ '9') || ('a' ≤ c && c ≤ 'f') || ('A' ≤ c && c ≤ 'F')

/-- `ObjectId.isValid(s)` for a string argument: a 24-character
hexadecimal string. -/
def isValidObjectId (s : String) : Bool :=
  s.length == 24 && s.toList.all isHexChar

/-- `ObjectId.isValid(x)` where `x` may be `undefined` (a missing body
field): `undefined` is never a valid id. -/
def isValidObjectIdOpt : Option String → Bool
  | none => false
  | some s => isValidObjectId s

/-- Does `needle` occur at the head of `hay`? -/
def leadMatch : List Char → List Char → Bool
  | [], _ => true
  | _ :: _, [] => false
  | a :: as, b :: bs => (a == b) && leadMatch as bs

/-- Does `needle` occur anywhere inside `hay` (contiguously)? -/
def occursIn (needle : List Char) : List Char → Bool
  | [] => leadMatch needle []
  | b :: bs => leadMatch needle (b :: bs) || occursIn needle bs

/-- Case-insensitive substring test: models `$regex` with option `"i"`
applied to a literal search term (no regex metacharacters). -/
def ciSub (needle hay : String) : Bool :=
  occursIn (needle.toList.map Char.toLower) (hay.toList.map Char.toLower)

/-- `s.split(" ")` from JavaScript, on a character list: split on every
single space, keeping empty segments. -/
def splitChars : List Char → List (List Char)
  | [] => [[]]
  | c :: cs =>
    let r := splitChars cs
    if c == ' ' then [] :: r
    else
      match r with
      | [] => [[c]]
      | h :: t => (c :: h) :: t

/-- `authHeader.split(" ")[1]` with the two JS falsiness checks of
`verifyFBToken`: `!authHeader` (absent or empty header) and `!token`
(no second segment, or an empty one) both yield `none`. -/
def headerToken : Option String → Option String
  | none => none
  | some h =>
    if h == "" then none
    else
      match (splitChars h.toList).get? 1 with
      | none => none
      | some t => if t.isEmpty then none else some (String.mk t)

/-- Outcome of the `verifyFBToken` middleware. -/
inductive GateResult where
  | unauth
  | forbidden
  | proceed (decoded : Doc)
deriving DecidableEq

/-- The `verifyFBToken` middleware: 401 when the header is missing or
carries no token, 403 when the verifier rejects the token, otherwise the
decoded claims are attached and the request proceeds. `verify` is the
Firebase `verifyIdToken` oracle. -/
def verifyFBToken (verify : String → Option Doc) (authHeader : Option String) :
    GateResult :=
  match headerToken authHeader with
  | none => .unauth
  | some t =>
    match verify t with
    | none => .forbidden
    | some d => .proceed d

/-- Run a gated route: the downstream handler is invoked only when the
middleware proceeds. -/
def runGated {α : Type} (verify : String → Option Doc) (ah : Option String)
    (onUnauth onForbidden : α) (handler : Doc → α) : α :=
  match verifyFBToken verify ah with
  | .unauth => onUnauth
  | .forbidden => onForbidden
  | .proceed d => handler d

/-- A document of the `parcels` collection. Parcels are inserted verbatim
from the request body (`POST /parcels`), so every payment-related field is
optional; `createdAt` is stamped by the handler. `_id` carries the id the
document has (client-supplied or driver-generated) as its hex string. -/
structure Parcel where
  _id : String
  email : Option String := none
  payment_status : Option String := none
  paidAt : Option Nat := none
  transactionId : Option String := none
  creation_timestamp : Option Int := none
  createdAt : Option Nat := none
deriving DecidableEq

/-- A document of the `payments` collection, as inserted by
`POST /payments`. -/
structure Payment where
  parcelId : String
  email : Option String
  amount : Int
  paymentMethod : Option String
  transactionId : Option String
  paidAt : Nat
deriving DecidableEq

/-- A document of the `trackings` collection, as inserted by
`POST /trackings`. -/
structure Tracking where
  tracking_id : String
  parcel_id : Option String
  status : String
  message : String
  updated_by : String
  updatedAt : Nat
deriving DecidableEq

/-- The body of a `POST /payments` request; any field may be absent. -/
structure PaymentReq where
  parcelId : Option String := none
  email : Option String := none
  amount : Option Int := none
  paymentMethod : Option String := none
  transactionId : Option String := none
deriving DecidableEq

/-- The body of a `POST /trackings` request. -/
structure TrackingReq where
  tracking_id : Option String := none
  parcel_id : Option String := none
  status : Option String := none
  message : Option String := none
  updated_by : Option String := none
deriving DecidableEq

/-- The persistent state: the five MongoDB collections of `parcelDB`. -/
structure DB where
  parcels : List Parcel
  payments : List Payment
  trackings : List Tracking
  users : List Doc
  riders : List Doc
deriving DecidableEq

/-- The empty database. -/
def dbEmpty : DB := ⟨[], [], [], [], []⟩

/-! ### User routes -/

/-- `POST /users`: look up by email; if a user exists answer
`{inserted: false}` (status 200) without writing, otherwise insert the
body spread with `created_at` set to the current ISO timestamp.
Result: new state, HTTP status, `inserted` flag. -/
def postUsers (db : DB) (nowIso : String) (body : Doc) : DB × Nat × Bool :=
  let email := dget body "email"
  match db.users.find? (fun d => dget d "email" == email) with
  | some _ => (db, 200, false)
  | none =>
    let user := dset body "created_at" nowIso
    ({ db with users := db.users ++ [user] }, 200, true)

/-- `PATCH /users/:id`: validate the id, `$set` the supplied fields on
the matching user, 404 when no user matches. -/
def patchUsers (db : DB) (id : String) (fields : Doc) : DB × Nat :=
  if !isValidObjectId id then (db, 400)
  else
    let r := updateFirstBy db.users (fun d => dget d "_id" == some id)
      (fun d => dsetAll d fields)
    if r.2 = 0 then (db, 404)
    else ({ db with users := r.1 }, 200)

/-- `GET /users/:id` (the route of `src/unnamed/part_000`): the handler
reads `req.params.uid`, but the route parameter is declared as `:id`, so
the params document binds only `"id"`. The query it runs is
`findOne({uid: <looked-up value>})`, where a `none` lookup models the JS
`undefined`, serialized as `null`, which matches documents lacking the
field. -/
def getUsersIdRoute (db : DB) (params : Doc) : Option Doc × Nat :=
  let uid := dget params "uid"
  match db.users.find? (fun d => dget d "uid" == uid) with
  | none => (none, 404)
  | some u => (some u, 200)

/-- `GET /users/:id` at a concrete path id: Express binds the route
parameter `:id`, so `params = [("id", pathId)]`. -/
def getUserByPathId (db : DB) (pathId : String) : Option Doc × Nat :=
  getUsersIdRoute db [("id", pathId)]

/-- JS `a || b` on two optional query strings: an absent or empty first
operand falls through to the second. -/
def jsOrStr : Option String → Option String → Option String
  | some t, e => if t == "" then e else some t
  | none, e => e

/-- The `$or` filter of `GET /users/search`: the term occurs
case-insensitively in the `email` field or in the `uid` field (a
`$regex` filter on a missing field matches nothing). -/
def userMatches (t : String) (d : Doc) : Bool :=
  (match dget d "email" with
   | some e => ciSub t e
   | none => false)
  ||
  (match dget d "uid" with
   | some u => ciSub t u
   | none => false)

/-- The fixed projection of `GET /users/search`. -/
def projectionFields : List String :=
  ["_id", "email", "uid", "name", "role", "createdAt", "last_log_in"]

/-- Apply the fixed projection to a document. -/
def projectDoc (d : Doc) : Doc :=
  d.filter (fun kv => decide (kv.1 ∈ projectionFields))

/-- `GET /users/search`: the term is `req.query.term || req.query.email`;
a missing or empty term answers 400; otherwise filter by `userMatches`,
project, and limit to 10. -/
def usersSearch (db : DB) (termQ emailQ : Option String) :
    Option (List Doc) × Nat :=
  match jsOrStr termQ emailQ with
  | none => (none, 400)
  | some t =>
    if t == "" then (none, 400)
    else (some (((db.users.filter (userMatches t)).map projectDoc).take 10), 200)

/-- `PATCH /users/:id/role`: validate id and role
(`role ∈ {admin, user, rider}`), then `$set` the role on the matching
user; 404 when no user matches. -/
def patchUserRole (db : DB) (id role : String) : DB × Nat :=
  if !isValidObjectId id then (db, 400)
  else if !(["admin", "user", "rider"].contains role) then (db, 400)
  else
    let r := updateFirstBy db.users (fun d => dget d "_id" == some id)
      (fun d => dset d "role" role)
    if r.2 = 0 then (db, 404)
    else ({ db with users := r.1 }, 200)

/-! ### Parcel routes -/

/-- The `GET /parcels` filter: `userEmail ? {email: userEmail} : {}` —
an absent or empty (falsy) email query selects everything. -/
def filterParcels (parcels : List Parcel) (emailQ : Option String) :
    List Parcel :=
  match emailQ with
  | none => parcels
  | some e => if e == "" then parcels else parcels.filter (fun p => p.email == some e)

/-- Comparison of `creation_timestamp` keys: a missing field sorts as
BSON null, below every number. -/
def optIntLe : Option Int → Option Int → Bool
  | none, _ => true
  | some _, none => false
  | some a, some b => a ≤ b

/-- `p` sorts no later than `q` in the descending
`sort({creation_timestamp: -1})` order. -/
def tsGe (p q : Parcel) : Bool := optIntLe q.creation_timestamp p.creation_timestamp

/-- Stable insertion step for the descending sort. -/
def insertTs (p : Parcel) : List Parcel → List Parcel
  | [] => [p]
  | q :: qs => if tsGe p q then p :: q :: qs else q :: insertTs p qs

/-- `sort({creation_timestamp: -1})`, modelled as a stable sort: ties
(in particular documents lacking the field) keep their collection
order. -/
def sortTsDesc : List Parcel → List Parcel
  | [] => []
  | p :: ps => insertTs p (sortTsDesc ps)

/-- `GET /parcels` as it stands in `src/index.js`: no auth middleware;
filter by the optional email query and sort by `creation_timestamp`
descending. -/
def getParcelsIndex (db : DB) (emailQ : Option String) : List Parcel × Nat :=
  (sortTsDesc (filterParcels db.parcels emailQ), 200)

/-- `GET /parcels` in the gated revision of `src/unnamed/part_000`:
`verifyFBToken` runs first; only a verified request reaches the same
read as `getParcelsIndex`. -/
def getParcelsGated (verify : String → Option Doc) (ah : Option String)
    (db : DB) (emailQ : Option String) : Option (List Parcel) × Nat :=
  match verifyFBToken verify ah with
  | .unauth => (none, 401)
  | .forbidden => (none, 403)
  | .proceed _ => (some (sortTsDesc (filterParcels db.parcels emailQ)), 200)

/-- `POST /parcels`: stamp `createdAt` and insert. A duplicate `_id`
makes `insertOne` raise a duplicate-key error, caught as a 500. -/
def postParcels (db : DB) (now : Nat) (body : Parcel) : DB × Nat :=
  if db.parcels.any (fun p => p._id == body._id) then (db, 500)
  else ({ db with parcels := db.parcels ++ [{ body with createdAt := some now }] }, 201)

/-- `GET /parcels/:id`: validate the id, then `findOne`; 404 when no
parcel matches. -/
def getParcelById (db : DB) (id : String) : Option Parcel × Nat :=
  if !isValidObjectId id then (none, 400)
  else
    match db.parcels.find? (fun p => p._id == id) with
    | none => (none, 404)
    | some p => (some p, 200)

/-- `deleteOne`: remove the first matching parcel; returns the new list
and the deleted count (0 or 1). -/
def eraseFirstParcel (ps : List Parcel) (pid : String) : List Parcel × Nat :=
  match ps with
  | [] => ([], 0)
  | p :: rest =>
    if p._id == pid then (rest, 1)
    else
      let r := eraseFirstParcel rest pid
      (p :: r.1, r.2)

/-- `DELETE /parcels/:id`: validate the id, `deleteOne`, 404 when
nothing was deleted. -/
def deleteParcel (db : DB) (id : String) : DB × Nat :=
  if !isValidObjectId id then (db, 400)
  else
    let r := eraseFirstParcel db.parcels id
    if r.2 = 0 then (db, 404)
    else ({ db with parcels := r.1 }, 200)

/-! ### Payment routes -/

/-- The `$set` applied to the parcel inside the `POST /payments`
transaction, restricted to the matching id. -/
def markPaid (now : Nat) (txid : Option String) (pid : String) (p : Parcel) :
    Parcel :=
  if p._id == pid then
    { p with payment_status := some "paid", paidAt := some now,
             transactionId := txid }
  else p

/-- The payment record inserted by `POST /payments`. -/
def mkPaymentRec (now : Nat) (pid : String) (email : Option String)
    (amt : Int) (pm txid : Option String) : Payment :=
  { parcelId := pid, email := email, amount := amt, paymentMethod := pm,
    transactionId := txid, paidAt := now }

/-- The body of `session.withTransaction` in `POST /payments`:
`updateOne` on the parcel (a write fault is injected by `uf`), abort when
no parcel matched, then `insertOne` of the payment record (fault `insf`).
An `error` result models an aborted transaction. -/
def paymentsTxn (db : DB) (now : Nat) (pid : String) (email : Option String)
    (amt : Int) (pm txid : Option String) (uf insf : Bool) :
    Except String DB :=
  if uf then .error "parcel update write fault"
  else
    let matched := db.parcels.countP (fun p => p._id == pid)
    let db1 := { db with parcels := db.parcels.map (markPaid now txid pid) }
    if matched = 0 then .error "Parcel not found or already removed"
    else if insf then .error "payment insert write fault"
    else .ok { db1 with
               payments := db1.payments ++ [mkPaymentRec now pid email amt pm txid] }

/-- `POST /payments`: validate `parcelId` (`ObjectId.isValid`) and
`amount` (`!amount || amount <= 0`), then run both writes in one
transaction; a committed transaction answers 201, an aborted one leaves
the state untouched and answers 500. -/
def postPayments (db : DB) (now : Nat) (req : PaymentReq) (uf insf : Bool) :
    DB × Nat :=
  if !isValidObjectIdOpt req.parcelId then (db, 400)
  else if !(match req.amount with
            | none => false
            | some a => decide (0 < a)) then (db, 400)
  else
    match paymentsTxn db now (req.parcelId.getD "") req.email
        (req.amount.getD 0) req.paymentMethod req.transactionId uf insf with
    | .ok db' => (db', 201)
    | .error _ => (db, 500)

/-! ### Tracking, payment-history and rider routes -/

/-- `POST /trackings`: require `tracking_id` and `status` (JS falsiness:
absent or empty fails); attach `parcel_id` only when it is a valid
ObjectId; insert with defaults `""` for message and author. -/
def postTrackings (db : DB) (now : Nat) (req : TrackingReq) : DB × Nat :=
  if req.tracking_id == none || req.tracking_id == some "" ||
     req.status == none || req.status == some "" then (db, 400)
  else
    ({ db with trackings := db.trackings ++ [{
        tracking_id := req.tracking_id.getD "",
        parcel_id :=
          match req.parcel_id with
          | some ps => if ps != "" && isValidObjectId ps then some ps else none
          | none => none,
        status := req.status.getD "",
        message := req.message.getD "",
        updated_by := req.updated_by.getD "",
        updatedAt := now }] }, 201)

/-- Descending order on `paidAt` for the payment-history sort. -/
def paidAtGe (p q : Payment) : Bool := q.paidAt ≤ p.paidAt

/-- Stable insertion step for the payment-history sort. -/
def insertPaidAt (p : Payment) : List Payment → List Payment
  | [] => [p]
  | q :: qs => if paidAtGe p q then p :: q :: qs else q :: insertPaidAt p qs

/-- `sort({paidAt: -1})` of `GET /payments`, modelled as a stable sort. -/
def sortPaidAtDesc : List Payment → List Payment
  | [] => []
  | p :: ps => insertPaidAt p (sortPaidAtDesc ps)

/-- `GET /payments`: gated by `verifyFBToken`; filter by the optional
email query, newest first. -/
def getPayments (verify : String → Option Doc) (ah : Option String)
    (db : DB) (emailQ : Option String) : Option (List Payment) × Nat :=
  match verifyFBToken verify ah with
  | .unauth => (none, 401)
  | .forbidden => (none, 403)
  | .proceed _ =>
    let l := match emailQ with
             | none => db.payments
             | some e => if e == "" then db.payments
                         else db.payments.filter (fun p => p.email == some e)
    (some (sortPaidAtDesc l), 200)

/-- `POST /riders`: require an email (JS falsiness), answer 200 without
writing when an application with that email exists, otherwise insert the
body spread with `status: "pending"` and a submission timestamp. -/
def postRiders (db : DB) (now : Nat) (body : Doc) : DB × Nat :=
  let e := dget body "email"
  if e == none || e == some "" then (db, 400)
  else
    match db.riders.find? (fun d => dget d "email" == e) with
    | some _ => (db, 200)
    | none =>
      let rd := dset (dset body "status" "pending") "submittedAt" (toString now)
      ({ db with riders := db.riders ++ [rd] }, 201)

/-- `GET /riders`: filter by the optional status query. -/
def getRiders (db : DB) (statusQ : Option String) : List Doc :=
  match statusQ with
  | none => db.riders
  | some s => if s == "" then db.riders
              else db.riders.filter (fun d => dget d "status" == some s)

/-- `PATCH /riders/approve/:id`: `new ObjectId(id)` throws on a
malformed id, caught as a 500; otherwise set the application approved
with a timestamp, and when an email was supplied additionally promote
that user's role to `"rider"` in a separate write. The handler answers
200 whether or not anything matched. -/
def riderApprove (db : DB) (now : Nat) (id : String) (email : Option String) :
    DB × Nat :=
  if !isValidObjectId id then (db, 500)
  else
    let r := updateFirstBy db.riders (fun d => dget d "_id" == some id)
      (fun d => dset (dset d "status" "approved") "approvedAt" (toString now))
    let db1 := { db with riders := r.1 }
    match email with
    | none => (db1, 200)
    | some e =>
      if e == "" then (db1, 200)
      else
        let u := updateFirstBy db1.users (fun d => dget d "email" == some e)
          (fun d => dset d "role" "rider")
        ({ db1 with users := u.1 }, 200)

/-! ### The whole service as a step function -/

/-- One inbound request, over the full route table of the most complete
revision (`src/unnamed/part_000`, second revision). Timestamps, request
bodies and injected write faults are operation parameters; read-only
routes carry no parameters relevant to the state. -/
inductive Op where
  | opPostUsers (nowIso : String) (body : Doc)
  | opPatchUsers (id : String) (fields : Doc)
  | opGetParcels
  | opPostParcels (now : Nat) (body : Parcel)
  | opGetParcel (id : String)
  | opDeleteParcel (id : String)
  | opCreatePaymentIntent
  | opPostPayments (now : Nat) (req : PaymentReq) (uf insf : Bool)
  | opPostTrackings (now : Nat) (req : TrackingReq)
  | opGetPayments
  | opPostRiders (now : Nat) (body : Doc)
  | opGetRiders
  | opRiderApprove (now : Nat) (id : String) (email : Option String)
  | opGetUserByPath (id : String)
  | opUsersSearch (termQ emailQ : Option String)
  | opPatchUserRole (id role : String)

/-- The state transition of one request: each write route delegates to
its handler; read-only routes leave the state unchanged. -/
def applyOp (db : DB) : Op → DB
  | .opPostUsers n b => (postUsers db n b).1
  | .opPatchUsers i f => (patchUsers db i f).1
  | .opGetParcels => db
  | .opPostParcels n b => (postParcels db n b).1
  | .opGetParcel _ => db
  | .opDeleteParcel i => (deleteParcel db i).1
  | .opCreatePaymentIntent => db
  | .opPostPayments n r uf insf => (postPayments db n r uf insf).1
  | .opPostTrackings n r => (postTrackings db n r).1
  | .opGetPayments => db
  | .opPostRiders n b => (postRiders db n b).1
  | .opGetRiders => db
  | .opRiderApprove n i e => (riderApprove db n i e).1
  | .opGetUserByPath _ => db
  | .opUsersSearch _ _ => db
  | .opPatchUserRole i r => (patchUserRole db i r).1

/-! ### Helper lemmas about the payment transaction -/

/-- A committed payment transaction marks the matching parcels paid,
appends exactly the one payment record, and touches nothing else. -/
theorem paymentsTxn_ok_eq {db db' : DB} {now : Nat} {pid : String}
    {email : Option String} {amt : Int} {pm txid : Option String}
    {uf insf : Bool}
    (h : paymentsTxn db now pid email amt pm txid uf insf = .ok db') :
    db'.parcels = db.parcels.map (markPaid now txid pid) ∧
    db'.payments = db.payments ++ [mkPaymentRec now pid email amt pm txid] ∧
    db'.trackings = db.trackings ∧ db'.users = db.users ∧
    db'.riders = db.riders := by
  simp only [paymentsTxn] at h
  split_ifs at h <;>
    first
      | exact Except.noConfusion h
      | (cases h; exact ⟨rfl, rfl, rfl, rfl, rfl⟩)

/-- A parcel in the image of `markPaid` that carries the paid id has the
paid fields; any other parcel is unchanged. -/
theorem markPaid_mem {now : Nat} {txid : Option String} {pid : String}
    {ps : List Parcel} {p' : Parcel}
    (h : p' ∈ ps.map (markPaid now txid pid)) (hid : p'._id = pid) :
    p'.payment_status = some "paid" ∧ p'.paidAt = some now ∧
    p'.transactionId = txid := by
  obtain ⟨p, hp, rfl⟩ := List.mem_map.1 h
  unfold markPaid
  by_cases hc : p._id == pid
  · simp [hc]
  · unfold markPaid at hid
    rw [if_neg (by simpa using hc)] at hid
    exact absurd (by simpa using hid) (by simpa using hc)

/-- With no injected write fault and a matching parcel present, the
payment transaction commits, yielding exactly the two writes. -/
theorem paymentsTxn_commits {db : DB} {now : Nat} {pid : String}
    {email : Option String} {amt : Int} {pm txid : Option String}
    (hm : ∃ p ∈ db.parcels, p._id = pid) :
    paymentsTxn db now pid email amt pm txid false false =
      .ok { parcels := db.parcels.map (markPaid now txid pid),
            payments := db.payments ++ [mkPaymentRec now pid email amt pm txid],
            trackings := db.trackings, users := db.users,
            riders := db.riders } := by
  have hpos : 0 < db.parcels.countP (fun p => p._id == pid) :=
    List.countP_pos.2
      (by obtain ⟨p, hp, he⟩ := hm; exact ⟨p, hp, by simpa using he⟩)
  have hne : db.parcels.countP (fun p => p._id == pid) ≠ 0 :=
    Nat.pos_iff_ne_zero.1 hpos
  simp [paymentsTxn, hne]

/-- `postPayments` with valid inputs reduces to the result of the
transaction. -/
theorem postPayments_valid_eq (db : DB) (now : Nat) (req : PaymentReq)
    (uf insf : Bool) (a : Int)
    (hpid : isValidObjectIdOpt req.parcelId = true)
    (ha : req.amount = some a) (hpos : 0 < a) :
    postPayments db now req uf insf =
      (match paymentsTxn db now (req.parcelId.getD "") req.email
          (req.amount.getD 0) req.paymentMethod req.transactionId uf insf with
       | .ok db' => (db', 201)
       | .error _ => (db, 500)) := by
  unfold postPayments
  rw [hpid, ha]
  simp [hpos]

/-- C1: a call to `POST /payments` with a well-formed `parcelId`,
`amount > 0` and an existing parcel is atomic: a 201 answer leaves the
parcel paid (with the supplied transaction id and the call's timestamp)
and appends exactly one new payment record referencing that parcel with
the supplied fields, touching no other collection; any non-201 outcome
(including an injected fault on either of the two writes) leaves the
whole database exactly as it was. -/
theorem recordPayment_atomic (db : DB) (now : Nat) (req : PaymentReq)
    (uf insf : Bool)
    (hpid : isValidObjectIdOpt req.parcelId = true)
    (hamt : ∃ a, req.amount = some a ∧ 0 < a)
    (hex : ∃ p ∈ db.parcels, p._id = req.parcelId.getD "") :
    ((postPayments db now req uf insf).2 = 201 →
      (∀ p' ∈ (postPayments db now req uf insf).1.parcels,
          p'._id = req.parcelId.getD "" →
          p'.payment_status = some "paid" ∧ p'.paidAt = some now ∧
          p'.transactionId = req.transactionId) ∧
      (postPayments db now req uf insf).1.payments =
        db.payments ++ [mkPaymentRec now (req.parcelId.getD "") req.email
          (req.amount.getD 0) req.paymentMethod req.transactionId] ∧
      (postPayments db now req uf insf).1.trackings = db.trackings ∧
      (postPayments db now req uf insf).1.users = db.users ∧
      (postPayments db now req uf insf).1.riders = db.riders) ∧
    ((postPayments db now req uf insf).2 ≠ 201 →
      (postPayments db now req uf insf).1 = db) := by
  obtain ⟨a, ha, hpos⟩ := hamt
  rw [postPayments_valid_eq db now req uf insf a hpid ha hpos]
  cases htxn : paymentsTxn db now (req.parcelId.getD "") req.email
      (req.amount.getD 0) req.paymentMethod req.transactionId uf insf with
  | error e =>
    refine ⟨fun h => ?_, fun _ => rfl⟩
    simp at h
  | ok db' =>
    obtain ⟨hparc, hpay, htr, hus, hri⟩ := paymentsTxn_ok_eq htxn
    refine ⟨fun _ => ⟨?_, hpay, htr, hus, hri⟩, fun h => absurd rfl h⟩
    intro p' hp' hid
    rw [hparc] at hp'
    exact markPaid_mem hp' hid

/-- C2: a `POST /payments` request whose `parcelId` is not a well-formed
ObjectId, or whose `amount` is missing, zero or negative, answers 400 and
performs no write at all — the returned state is the input state, whatever
faults the two transaction writes would have raised (the atomic unit is
never opened). -/
theorem recordPayment_validation_no_writes (db : DB) (now : Nat)
    (req : PaymentReq) (uf insf : Bool)
    (h : isValidObjectIdOpt req.parcelId = false ∨ req.amount = none ∨
         ∃ a, req.amount = some a ∧ a ≤ 0) :
    postPayments db now req uf insf = (db, 400) := by
  unfold postPayments
  rcases h with hv | hn | ⟨a, ha, hle⟩
  · simp [hv]
  · by_cases hv : isValidObjectIdOpt req.parcelId <;> simp [hv, hn]
  · have hnlt : ¬(0 < a) := not_lt.2 hle
    by_cases hv : isValidObjectIdOpt req.parcelId <;> simp [hv, ha, hnlt]

/-- C4: against an already-paid parcel, a second valid `POST /payments`
call is not rejected: it answers 201, re-sets `payment_status` to
`"paid"` (overwriting `paidAt` and `transactionId` with the new call's
values), and appends one more payment record for that parcel, so the
count of payment records referencing the parcel grows by one. -/
theorem recordPayment_resubmission (db : DB) (now : Nat) (req : PaymentReq)
    (hpid : isValidObjectIdOpt req.parcelId = true)
    (hamt : ∃ a, req.amount = some a ∧ 0 < a)
    (hpaid : ∃ p ∈ db.parcels, p._id = req.parcelId.getD "" ∧
             p.payment_status = some "paid") :
    (postPayments db now req false false).2 = 201 ∧
    (postPayments db now req false false).1.payments =
      db.payments ++ [mkPaymentRec now (req.parcelId.getD "") req.email
        (req.amount.getD 0) req.paymentMethod req.transactionId] ∧
    (postPayments db now req false false).1.payments.countP
        (fun q => q.parcelId == req.parcelId.getD "") =
      db.payments.countP (fun q => q.parcelId == req.parcelId.getD "") + 1 ∧
    (∀ p' ∈ (postPayments db now req false false).1.parcels,
        p'._id = req.parcelId.getD "" →
        p'.payment_status = some "paid" ∧ p'.paidAt = some now ∧
        p'.transactionId = req.transactionId) := by
  obtain ⟨a, ha, hpos⟩ := hamt
  obtain ⟨p, hp, hid, hps⟩ := hpaid
  have hm : ∃ q ∈ db.parcels, q._id = req.parcelId.getD "" := ⟨p, hp, hid⟩
  rw [postPayments_valid_eq db now req false false a hpid ha hpos,
      paymentsTxn_commits hm]
  refine ⟨rfl, rfl, ?_, ?_⟩
  · simp [mkPaymentRec, List.countP_append, List.countP_cons]
  · intro p' hp' hid'
    exact markPaid_mem hp' hid'

/-! ### Concrete instances for the payment theorems -/

/-- A well-formed ObjectId used by the concrete instances. -/
def wPid : String := "0123456789abcdef01234567"

/-- A parcel awaiting payment. -/
def wParcel : Parcel := { _id := wPid, email := some "a@b.com" }

/-- A database holding that one parcel. -/
def wDB : DB := { parcels := [wParcel], payments := [], trackings := [],
                  users := [], riders := [] }

/-- The concrete-scenario request of the spec: amount 500, card, tx1. -/
def wReq : PaymentReq :=
  { parcelId := some wPid, email := some "a@b.com", amount := some 500,
    paymentMethod := some "card", transactionId := some "tx1" }

/-- Witness for `recordPayment_atomic`: all hypotheses hold at `wDB`,
`wReq`, and the 201 case yields exactly the one appended payment
record. -/
theorem recordPayment_atomic_witness :
    isValidObjectIdOpt wReq.parcelId = true ∧
    (∃ a, wReq.amount = some a ∧ 0 < a) ∧
    (∃ p ∈ wDB.parcels, p._id = wReq.parcelId.getD "") ∧
    (postPayments wDB 7 wReq false false).1.payments =
      wDB.payments ++ [mkPaymentRec 7 (wReq.parcelId.getD "") wReq.email
        (wReq.amount.getD 0) wReq.paymentMethod wReq.transactionId] :=
  ⟨by decide, ⟨500, rfl, by decide⟩, ⟨wParcel, by decide, by decide⟩,
    ((recordPayment_atomic wDB 7 wReq false false (by decide)
      ⟨500, rfl, by decide⟩ ⟨wParcel, by decide, by decide⟩).1
      (by decide)).2.1⟩

/-- A request with a malformed parcel id. -/
def wBadReq : PaymentReq :=
  { parcelId := some "not-an-object-id", amount := some 500 }

/-- Witness for `recordPayment_validation_no_writes`: the malformed-id
request leaves `wDB` untouched with a 400 answer, even with both write
faults armed. -/
theorem recordPayment_validation_no_writes_witness :
    isValidObjectIdOpt wBadReq.parcelId = false ∧
    postPayments wDB 7 wBadReq true true = (wDB, 400) :=
  ⟨by decide,
    recordPayment_validation_no_writes wDB 7 wBadReq true true
      (Or.inl (by decide))⟩

/-- The database after the first successful payment: the parcel is paid
and one payment record exists. -/
def wDBPaid : DB := (postPayments wDB 7 wReq false false).1

/-- Witness for `recordPayment_resubmission`: replaying `wReq` against
the already-paid parcel answers 201 and leaves two payment records for
the parcel. -/
theorem recordPayment_resubmission_witness :
    (∃ p ∈ wDBPaid.parcels, p._id = wReq.parcelId.getD "" ∧
      p.payment_status = some "paid") ∧
    (postPayments wDBPaid 9 wReq false false).2 = 201 ∧
    (postPayments wDBPaid 9 wReq false false).1.payments.countP
        (fun q => q.parcelId == wReq.parcelId.getD "") = 2 :=
  ⟨by decide,
    (recordPayment_resubmission wDBPaid 9 wReq (by decide)
      ⟨500, rfl, by decide⟩ (by decide)).1,
    by
      have h := (recordPayment_resubmission wDBPaid 9 wReq (by decide)
        ⟨500, rfl, by decide⟩ (by decide)).2.2.1
      rw [h]
      decide⟩

/-! ### The paid-status invariant (C3) -/

/-- Every parcel carrying this id is recorded as paid. -/
def paidAtId (db : DB) (i : String) : Prop :=
  ∀ p ∈ db.parcels, p._id = i → p.payment_status = some "paid"

/-- Transport `paidAtId` along an unchanged parcels collection. -/
theorem paidAtId_of_parcels_eq {db db' : DB} {i : String}
    (h : db'.parcels = db.parcels) (hp : paidAtId db i) : paidAtId db' i :=
  fun p hpmem hid => hp p (h ▸ hpmem) hid

/-- `POST /users` never touches the parcels collection. -/
theorem parcels_postUsers (db : DB) (n : String) (b : Doc) :
    (postUsers db n b).1.parcels = db.parcels := by
  unfold postUsers
  dsimp only
  split <;> rfl

/-- `PATCH /users/:id` never touches the parcels collection. -/
theorem parcels_patchUsers (db : DB) (i : String) (f : Doc) :
    (patchUsers db i f).1.parcels = db.parcels := by
  unfold patchUsers
  dsimp only
  split_ifs <;> rfl

/-- `PATCH /users/:id/role` never touches the parcels collection. -/
theorem parcels_patchUserRole (db : DB) (i r : String) :
    (patchUserRole db i r).1.parcels = db.parcels := by
  unfold patchUserRole
  dsimp only
  split_ifs <;> rfl

/-- `POST /trackings` never touches the parcels collection. -/
theorem parcels_postTrackings (db : DB) (n : Nat) (r : TrackingReq) :
    (postTrackings db n r).1.parcels = db.parcels := by
  unfold postTrackings
  split_ifs <;> rfl

/-- `POST /riders` never touches the parcels collection. -/
theorem parcels_postRiders (db : DB) (n : Nat) (b : Doc) :
    (postRiders db n b).1.parcels = db.parcels := by
  unfold postRiders
  dsimp only
  split_ifs
  · rfl
  · split <;> rfl

/-- `PATCH /riders/approve/:id` never touches the parcels collection. -/
theorem parcels_riderApprove (db : DB) (n : Nat) (i : String)
    (e : Option String) :
    (riderApprove db n i e).1.parcels = db.parcels := by
  unfold riderApprove
  dsimp only
  split_ifs
  · rfl
  · split
    · rfl
    · split <;> rfl

/-- `deleteOne` only removes: membership in the remaining parcels
implies membership before. -/
theorem mem_eraseFirstParcel {ps : List Parcel} {pid : String} {q : Parcel}
    (h : q ∈ (eraseFirstParcel ps pid).1) : q ∈ ps := by
  induction ps with
  | nil => simpa [eraseFirstParcel] using h
  | cons p rest ih =>
    simp only [eraseFirstParcel] at h
    by_cases hc : p._id == pid
    · rw [if_pos hc] at h
      exact List.mem_cons_of_mem p h
    · rw [if_neg hc] at h
      rcases List.mem_cons.1 h with h1 | h2
      · exact h1 ▸ List.mem_cons_self p rest
      · exact List.mem_cons_of_mem p (ih h2)

/-- `POST /payments` either leaves the state untouched or rewrites the
parcels with `markPaid`. -/
theorem postPayments_state (db : DB) (now : Nat) (req : PaymentReq)
    (uf insf : Bool) :
    (postPayments db now req uf insf).1 = db ∨
    (postPayments db now req uf insf).1.parcels =
      db.parcels.map (markPaid now req.transactionId (req.parcelId.getD "")) := by
  unfold postPayments
  split_ifs
  · exact Or.inl rfl
  · exact Or.inl rfl
  · cases htxn : paymentsTxn db now (req.parcelId.getD "") req.email
        (req.amount.getD 0) req.paymentMethod req.transactionId uf insf with
    | error e => exact Or.inl rfl
    | ok db' => exact Or.inr (paymentsTxn_ok_eq htxn).1

/-- C3: once a parcel is paid it never reverts. Over the whole route
table, for any parcel id that exists and whose parcels are all recorded
paid, every operation of the service preserves that: the only handler
writing `payment_status` is `POST /payments`, and it only writes
`"paid"`. -/
theorem paid_status_never_reverts (db : DB) (op : Op) (i : String)
    (hex : ∃ p ∈ db.parcels, p._id = i) (hpaid : paidAtId db i) :
    paidAtId (applyOp db op) i := by
  cases op with
  | opPostUsers n b =>
    exact paidAtId_of_parcels_eq (parcels_postUsers db n b) hpaid
  | opPatchUsers id f =>
    exact paidAtId_of_parcels_eq (parcels_patchUsers db id f) hpaid
  | opGetParcels => exact hpaid
  | opPostParcels n b =>
    intro p' hp' hid
    simp only [applyOp, postParcels] at hp'
    by_cases hdup : db.parcels.any (fun p => p._id == b._id)
    · rw [if_pos hdup] at hp'
      exact hpaid p' hp' hid
    · rw [if_neg hdup] at hp'
      rcases List.mem_append.1 hp' with hin | hnew
      · exact hpaid p' hin hid
      · exfalso
        obtain ⟨q, hq, hqid⟩ := hex
        rcases List.mem_singleton.1 hnew with rfl
        apply hdup
        refine List.any_eq_true.2 ⟨q, hq, ?_⟩
        have : b._id = i := hid
        simp [this, hqid]
  | opGetParcel _ => exact hpaid
  | opDeleteParcel id =>
    intro p' hp' hid
    simp only [applyOp, deleteParcel] at hp'
    by_cases hv : isValidObjectId id
    all_goals simp only [hv, Bool.not_true, Bool.not_false,
      Bool.false_eq_true, if_true, if_false, ite_true, ite_false] at hp'
    · split at hp'
      · exact hpaid p' hp' hid
      · exact hpaid p' (mem_eraseFirstParcel hp') hid
    · exact hpaid p' hp' hid
  | opCreatePaymentIntent => exact hpaid
  | opPostPayments n r uf insf =>
    rcases postPayments_state db n r uf insf with hsame | hmap
    · intro p' hp' hid
      rw [show applyOp db (.opPostPayments n r uf insf) =
            (postPayments db n r uf insf).1 from rfl, hsame] at hp'
      exact hpaid p' hp' hid
    · intro p' hp' hid
      rw [show applyOp db (.opPostPayments n r uf insf) =
            (postPayments db n r uf insf).1 from rfl, hmap] at hp'
      obtain ⟨p, hp, rfl⟩ := List.mem_map.1 hp'
      unfold markPaid
      by_cases hc : p._id == r.parcelId.getD ""
      · rw [if_pos hc]
      · rw [if_neg hc]
        unfold markPaid at hid
        rw [if_neg hc] at hid
        exact hpaid p hp hid
  | opPostTrackings n r =>
    exact paidAtId_of_parcels_eq (parcels_postTrackings db n r) hpaid
  | opGetPayments => exact hpaid
  | opPostRiders n b =>
    exact paidAtId_of_parcels_eq (parcels_postRiders db n b) hpaid
  | opGetRiders => exact hpaid
  | opRiderApprove n id e =>
    exact paidAtId_of_parcels_eq (parcels_riderApprove db n id e) hpaid
  | opGetUserByPath _ => exact hpaid
  | opUsersSearch _ _ => exact hpaid
  | opPatchUserRole id r =>
    exact paidAtId_of_parcels_eq (parcels_patchUserRole db id r) hpaid

instance decPaidAtId (db : DB) (i : String) : Decidable (paidAtId db i) :=
  inferInstanceAs
    (Decidable (∀ p ∈ db.parcels, p._id = i → p.payment_status = some "paid"))

/-- A paid parcel for the invariant witness. -/
def w3Parcel : Parcel := { _id := wPid, payment_status := some "paid" }

/-- A database holding one paid parcel. -/
def w3DB : DB := { parcels := [w3Parcel], payments := [], trackings := [],
                   users := [], riders := [] }

/-- An operation trying to re-insert an unpaid parcel under the same id. -/
def w3Op : Op := .opPostParcels 5 { _id := wPid, payment_status := some "unpaid" }

/-- Witness for `paid_status_never_reverts`: the paid parcel of `w3DB`
stays paid across an attempted re-insert of an unpaid parcel with its
id. -/
theorem paid_status_never_reverts_witness :
    (∃ p ∈ w3DB.parcels, p._id = wPid) ∧ paidAtId w3DB wPid ∧
    paidAtId (applyOp w3DB w3Op) wPid :=
  ⟨by decide, by decide,
    paid_status_never_reverts w3DB w3Op wPid (by decide) (by decide)⟩

/-! ### The auth gate (C5, C6) -/

/-- C5: the `verifyFBToken` middleware. A request whose Authorization
header is absent or carries no token after the scheme is answered 401
(`unauth`) and the downstream handler never runs — the gated route's
result is the 401 answer whatever the handler is. A present token the
verifier rejects is answered 403 (`forbidden`), again without running the
handler. Only a verified token attaches the decoded claims and invokes
the handler on them. -/
theorem verifyFBToken_gate (verify : String → Option Doc) (ah : Option String) :
    (headerToken ah = none →
      verifyFBToken verify ah = .unauth ∧
      ∀ (α : Type) (u f : α) (h1 h2 : Doc → α),
        runGated verify ah u f h1 = u ∧
        runGated verify ah u f h1 = runGated verify ah u f h2) ∧
    (∀ t, headerToken ah = some t →
      (verify t = none →
        verifyFBToken verify ah = .forbidden ∧
        ∀ (α : Type) (u f : α) (h1 h2 : Doc → α),
          runGated verify ah u f h1 = f ∧
          runGated verify ah u f h1 = runGated verify ah u f h2) ∧
      (∀ d, verify t = some d →
        verifyFBToken verify ah = .proceed d ∧
        ∀ (α : Type) (u f : α) (h1 : Doc → α),
          runGated verify ah u f h1 = h1 d)) := by
  constructor
  · intro h
    have hv : verifyFBToken verify ah = .unauth := by
      unfold verifyFBToken
      rw [h]
    refine ⟨hv, ?_⟩
    intro α u f h1 h2
    unfold runGated
    rw [hv]
    exact ⟨rfl, rfl⟩
  · intro t ht
    constructor
    · intro hn
      have hv : verifyFBToken verify ah = .forbidden := by
        unfold verifyFBToken
        rw [ht]
        dsimp only
        rw [hn]
      refine ⟨hv, ?_⟩
      intro α u f h1 h2
      unfold runGated
      rw [hv]
      exact ⟨rfl, rfl⟩
    · intro d hd
      have hv : verifyFBToken verify ah = .proceed d := by
        unfold verifyFBToken
        rw [ht]
        dsimp only
        rw [hd]
      refine ⟨hv, ?_⟩
      intro α u f h1
      unfold runGated
      rw [hv]

/-- A concrete verifier: accepts exactly the token `"good"`. -/
def wVerify : String → Option Doc :=
  fun t => if t == "good" then some [("uid", "u1")] else none

/-- Witness for `verifyFBToken_gate` at concrete headers: a verified
bearer token proceeds with the decoded claims; a header with no token
and a missing header are 401; a rejected token is 403. -/
theorem verifyFBToken_gate_witness :
    headerToken (some "Bearer good") = some "good" ∧
    verifyFBToken wVerify (some "Bearer good") = .proceed [("uid", "u1")] ∧
    verifyFBToken wVerify none = .unauth ∧
    verifyFBToken wVerify (some "Bearer") = .unauth ∧
    verifyFBToken wVerify (some "Bearer bad") = .forbidden :=
  ⟨by decide,
    (((verifyFBToken_gate wVerify (some "Bearer good")).2 "good"
      (by decide)).2 [("uid", "u1")] (by decide)).1,
    ((verifyFBToken_gate wVerify none).1 (by decide)).1,
    ((verifyFBToken_gate wVerify (some "Bearer")).1 (by decide)).1,
    (((verifyFBToken_gate wVerify (some "Bearer bad")).2 "bad"
      (by decide)).1 (by decide)).1⟩

/-- A parcel and database for the C6 instances. -/
def c6Parcel : Parcel := { _id := wPid, email := some "a@b.com" }

/-- The database holding that parcel. -/
def c6DB : DB := { parcels := [c6Parcel], payments := [], trackings := [],
                   users := [], riders := [] }

/-- Counterexample to C6 as stated: in `src/index.js` the
`GET /parcels` route carries no auth middleware, so the handler runs for
every request — concretely, a request with no Authorization header at
all (and hence no valid bearer token) receives the full parcel list with
status 200, not 401/403. -/
theorem getParcels_ungated_counterexample :
    getParcelsIndex c6DB none = ([c6Parcel], 200) := by decide

/-- C6 amended: in the gated revision of `GET /parcels`
(`src/unnamed/part_000`, second revision), a request without a valid
bearer token never receives the parcel list — the gate answers 401 or
403 and the collection read never happens; the `src/index.js` revision
leaves the route ungated. -/
theorem getParcels_gated_requires_token (verify : String → Option Doc)
    (ah : Option String) (db : DB) (emailQ : Option String)
    (h : ∀ d, verifyFBToken verify ah ≠ .proceed d) :
    (getParcelsGated verify ah db emailQ).1 = none ∧
    ((getParcelsGated verify ah db emailQ).2 = 401 ∨
     (getParcelsGated verify ah db emailQ).2 = 403) := by
  unfold getParcelsGated
  cases hv : verifyFBToken verify ah with
  | unauth => exact ⟨rfl, Or.inl rfl⟩
  | forbidden => exact ⟨rfl, Or.inr rfl⟩
  | proceed d => exact absurd hv (h d)

/-- Witness for `getParcels_gated_requires_token`: with no Authorization
header the gated route returns no list and a 401/403 status. -/
theorem getParcels_gated_requires_token_witness :
    (∀ d, verifyFBToken wVerify none ≠ .proceed d) ∧
    (getParcelsGated wVerify none c6DB none).1 = none ∧
    ((getParcelsGated wVerify none c6DB none).2 = 401 ∨
     (getParcelsGated wVerify none c6DB none).2 = 403) :=
  ⟨fun _ h => GateResult.noConfusion h,
    (getParcels_gated_requires_token wVerify none c6DB none
      (fun _ h => GateResult.noConfusion h)).1,
    (getParcels_gated_requires_token wVerify none c6DB none
      (fun _ h => GateResult.noConfusion h)).2⟩

/-! ### Parcel list ordering (C7) -/

/-- Nat-option comparison with missing lowest, to state the intended
newest-first ordering on `createdAt`. -/
def natOptGe : Option Nat → Option Nat → Bool
  | _, none => true
  | none, some _ => false
  | some a, some b => b ≤ a

/-- The intended spec ordering of the parcel list: `createdAt`
non-increasing (newest first). -/
def createdAtDescending : List Parcel → Bool
  | [] => true
  | [_] => true
  | p :: q :: r => natOptGe p.createdAt q.createdAt && createdAtDescending (q :: r)

/-- The first parcel created through the service, at time 1. -/
def c7Body1 : Parcel := { _id := "aaaaaaaaaaaaaaaaaaaaaaaa", email := some "a@b.com" }

/-- The second parcel created through the service, at time 2. -/
def c7Body2 : Parcel := { _id := "bbbbbbbbbbbbbbbbbbbbbbbb", email := some "a@b.com" }

/-- The database after creating the two parcels via `POST /parcels`. -/
def c7DB : DB := (postParcels (postParcels dbEmpty 1 c7Body1).1 2 c7Body2).1

/-- C7, sort-key mismatch: `POST /parcels` stamps `createdAt`, but
`GET /parcels` sorts on `creation_timestamp`, a field the create handler
never sets. After creating two parcels at times 1 and 2, the listed
order is creation order (both sort keys missing and tied), so the list
is oldest first — not ordered by creation time newest-first as the
handler's own comment (`// sort latest first`) and the spec intend. -/
theorem parcels_list_not_creation_ordered :
    (getParcelsIndex c7DB none).1.map (fun p => p.createdAt) =
      [some 1, some 2] ∧
    createdAtDescending (getParcelsIndex c7DB none).1 = false := by decide

/-! ### User search (C8) -/

/-- C8: whenever `GET /users/search` answers with a result list, the
list has at most 10 entries, every returned document carries only fields
of the fixed projection, and every returned document is the projection
of a stored user whose `email` or `uid` field contains the effective
search term case-insensitively. -/
theorem usersSearch_limit_projection_match (db : DB)
    (termQ emailQ : Option String) (t : String) (l : List Doc)
    (ht : jsOrStr termQ emailQ = some t)
    (hl : (usersSearch db termQ emailQ).1 = some l) :
    l.length ≤ 10 ∧
    (∀ d ∈ l, ∀ kv ∈ d, kv.1 ∈ projectionFields) ∧
    (∀ d ∈ l, ∃ u ∈ db.users, userMatches t u = true ∧ d = projectDoc u) := by
  unfold usersSearch at hl
  rw [ht] at hl
  dsimp only at hl
  by_cases h0 : t == ""
  · rw [if_pos h0] at hl
    exact Option.noConfusion hl
  · rw [if_neg h0] at hl
    obtain rfl : ((db.users.filter (userMatches t)).map projectDoc).take 10 = l :=
      Option.some.inj hl
    refine ⟨?_, ?_, ?_⟩
    · exact List.length_take_le 10 _
    · intro d hd kv hkv
      have hd' := List.mem_of_mem_take hd
      obtain ⟨u, hu, rfl⟩ := List.mem_map.1 hd'
      have := List.mem_filter.1 hkv
      exact of_decide_eq_true this.2
    · intro d hd
      have hd' := List.mem_of_mem_take hd
      obtain ⟨u, hu, rfl⟩ := List.mem_map.1 hd'
      have := List.mem_filter.1 hu
      exact ⟨u, this.1, this.2, rfl⟩

/-- Users for the search witness: one matching with extra private
fields, one not matching. -/
def w8DB : DB :=
  { parcels := [], payments := [], trackings := [], users :=
      [[("_id", "u1"), ("email", "Alice@Example.com"), ("role", "admin"),
        ("secret", "s3cr3t")],
       [("_id", "u2"), ("email", "bob@other.org"), ("uid", "xyz")]],
    riders := [] }

/-- Witness for `usersSearch_limit_projection_match`: searching
`"example"` returns one projected document, it satisfies the bound, the
projection and the match condition. -/
theorem usersSearch_limit_projection_match_witness :
    jsOrStr (some "example") none = some "example" ∧
    (usersSearch w8DB (some "example") none).1 =
      some [[("_id", "u1"), ("email", "Alice@Example.com"), ("role", "admin")]] ∧
    ([[("_id", "u1"), ("email", "Alice@Example.com"), ("role", "admin")]] :
      List Doc).length ≤ 10 ∧
    (∀ d ∈ ([[("_id", "u1"), ("email", "Alice@Example.com"), ("role", "admin")]] :
      List Doc), ∀ kv ∈ d, kv.1 ∈ projectionFields) :=
  ⟨by decide, by decide,
    (usersSearch_limit_projection_match w8DB (some "example") none "example"
      _ (by decide) (by decide)).1,
    (usersSearch_limit_projection_match w8DB (some "example") none "example"
      _ (by decide) (by decide)).2.1⟩

/-! ### User upsert idempotence (C9) -/

/-- Filtering by a predicate implied by the search predicate does not
change the result of `find?`. -/
theorem find?_filter_of_imp {α : Type} (l : List α) (p q : α → Bool)
    (h : ∀ x, p x = true → q x = true) :
    (l.filter q).find? p = l.find? p := by
  induction l with
  | nil => rfl
  | cons a l ih =>
    by_cases hq : q a
    · rw [List.filter_cons_of_pos hq]
      by_cases hp : p a
      · rw [List.find?_cons_of_pos _ hp, List.find?_cons_of_pos _ hp]
      · rw [List.find?_cons_of_neg _ (by simpa using hp),
            List.find?_cons_of_neg _ (by simpa using hp), ih]
    · rw [List.filter_cons_of_neg (by simpa using hq)]
      have hp : p a = false := by
        cases hpa : p a
        · rfl
        · exact absurd (h a hpa) (by simpa using hq)
      rw [List.find?_cons_of_neg _ (by simp [hp]), ih]

/-- Reading a field other than the one just set gives the old value. -/
theorem dget_dset_ne {d : Doc} {k k' v : String} (h : k ≠ k') :
    dget (dset d k' v) k = dget d k := by
  unfold dget dset
  rw [List.find?_append]
  have h2 : List.find? (fun kv => kv.1 == k) [(k', v)] = none := by
    simp [Ne.symm h]
  rw [h2, Option.or_none]
  rw [find?_filter_of_imp]
  intro x hx
  have hx1 : x.1 = k := by simpa using hx
  simp [hx1, bne, h]

/-- When no user carries the email, `POST /users` inserts the body
stamped with `created_at`. -/
theorem postUsers_inserts (db : DB) (iso : String) (body : Doc) (e : String)
    (he : dget body "email" = some e)
    (h0 : db.users.find? (fun d => dget d "email" == some e) = none) :
    postUsers db iso body =
      ({ db with users := db.users ++ [dset body "created_at" iso] },
        200, true) := by
  unfold postUsers
  rw [he]
  dsimp only
  rw [h0]

/-- When a user carries the email, `POST /users` writes nothing and
reports `inserted: false`. -/
theorem postUsers_already_exists (db : DB) (iso : String) (body : Doc)
    (e : String) (u : Doc)
    (he : dget body "email" = some e)
    (h0 : db.users.find? (fun d => dget d "email" == some e) = some u) :
    postUsers db iso body = (db, 200, false) := by
  unfold postUsers
  rw [he]
  dsimp only
  rw [h0]

/-- C9: `upsertByEmail` (`POST /users`) is idempotent. Starting from a
state with no user under the email, the first call inserts exactly the
one user, stamped with its creation timestamp; a second call with the
same email (any body) inserts nothing, updates nothing — the state is
unchanged — and acknowledges with `inserted: false`. -/
theorem upsertByEmail_idempotent (db : DB) (iso1 iso2 : String)
    (body1 body2 : Doc) (e : String)
    (h1 : dget body1 "email" = some e)
    (h2 : dget body2 "email" = some e)
    (h0 : db.users.find? (fun d => dget d "email" == some e) = none) :
    (postUsers db iso1 body1).2 = (200, true) ∧
    (postUsers db iso1 body1).1.users =
      db.users ++ [dset body1 "created_at" iso1] ∧
    (postUsers (postUsers db iso1 body1).1 iso2 body2).2 = (200, false) ∧
    (postUsers (postUsers db iso1 body1).1 iso2 body2).1 =
      (postUsers db iso1 body1).1 := by
  have e1 := postUsers_inserts db iso1 body1 e h1 h0
  have hnew : dget (dset body1 "created_at" iso1) "email" = some e := by
    rw [dget_dset_ne (by decide)]
    exact h1
  have hfind2 : (postUsers db iso1 body1).1.users.find?
      (fun d => dget d "email" == some e) =
      some (dset body1 "created_at" iso1) := by
    rw [e1]
    dsimp only
    rw [List.find?_append, h0]
    simp [hnew]
  have e2 := postUsers_already_exists (postUsers db iso1 body1).1 iso2 body2 e
    (dset body1 "created_at" iso1) h2 hfind2
  refine ⟨by rw [e1], by rw [e1], by rw [e2], by rw [e2]⟩

/-- A fresh user body for the idempotence witness. -/
def w9Body : Doc := [("email", "carol@example.com"), ("name", "Carol")]

/-- Witness for `upsertByEmail_idempotent`: from the empty database, the
first call inserts Carol with her creation timestamp and the second call
leaves the state untouched with `inserted: false`. -/
theorem upsertByEmail_idempotent_witness :
    dget w9Body "email" = some "carol@example.com" ∧
    dbEmpty.users.find?
      (fun d => dget d "email" == some "carol@example.com") = none ∧
    (postUsers dbEmpty "t1" w9Body).1.users =
      dbEmpty.users ++ [dset w9Body "created_at" "t1"] ∧
    (postUsers (postUsers dbEmpty "t1" w9Body).1 "t2" w9Body).2 =
      (200, false) ∧
    (postUsers (postUsers dbEmpty "t1" w9Body).1 "t2" w9Body).1 =
      (postUsers dbEmpty "t1" w9Body).1 :=
  ⟨by decide, by decide,
    (upsertByEmail_idempotent dbEmpty "t1" "t2" w9Body w9Body
      "carol@example.com" (by decide) (by decide) (by decide)).2.1,
    (upsertByEmail_idempotent dbEmpty "t1" "t2" w9Body w9Body
      "carol@example.com" (by decide) (by decide) (by decide)).2.2.1,
    (upsertByEmail_idempotent dbEmpty "t1" "t2" w9Body w9Body
      "carol@example.com" (by decide) (by decide) (by decide)).2.2.2⟩

/-! ### The `GET /users/:id` parameter mismatch (C10) -/

/-- C10: the `GET /users/:id` handler reads `req.params.uid` while the
route declares `:id`, so the lookup key is always `undefined` and the
query is `{uid: undefined}` (serialized `{uid: null}`, matching
documents lacking the field). The response is therefore independent of
the identifier in the path; any document it returns lacks a `uid` field;
and when every stored user carries a `uid`, every request is answered
404. -/
theorem getUserByPath_ignores_path_id (db : DB) (id1 id2 : String) :
    getUserByPathId db id1 = getUserByPathId db id2 ∧
    (∀ d, (getUserByPathId db id1).1 = some d → dget d "uid" = none) ∧
    ((∀ d ∈ db.users, dget d "uid" ≠ none) →
      (getUserByPathId db id1).2 = 404) := by
  have key : ∀ pid : String, getUserByPathId db pid =
      (match db.users.find? (fun d => dget d "uid" == none) with
       | none => (none, 404)
       | some u => (some u, 200)) := by
    intro pid
    unfold getUserByPathId getUsersIdRoute
    have hu : dget [("id", pid)] "uid" = none := rfl
    rw [hu]
  refine ⟨by rw [key id1, key id2], ?_, ?_⟩
  · intro d hd
    rw [key id1] at hd
    cases hfind : db.users.find? (fun x => dget x "uid" == none) with
    | none =>
      rw [hfind] at hd
      exact Option.noConfusion hd
    | some u =>
      rw [hfind] at hd
      obtain rfl : u = d := Option.some.inj hd
      have hpred := List.find?_some hfind
      simpa using hpred
  · intro hall
    rw [key id1]
    cases hfind : db.users.find? (fun x => dget x "uid" == none) with
    | none => rfl
    | some u =>
      have hmem := List.mem_of_find?_eq_some hfind
      have hpred := List.find?_some hfind
      exact absurd (by simpa using hpred) (hall u hmem)

/-- A user directory where Dave (no `uid` field) is stored before Erin
(uid `e1`). -/
def w10DB : DB :=
  { parcels := [], payments := [], trackings := [], users :=
      [[("_id", "d1"), ("email", "dave@example.com")],
       [("_id", "e2"), ("uid", "e1"), ("email", "erin@example.com")]],
    riders := [] }

/-- Witness for `getUserByPath_ignores_path_id`: asking for Erin's id
returns the same answer as any other path id — Dave's document, which
lacks a `uid` field. -/
theorem getUserByPath_ignores_path_id_witness :
    getUserByPathId w10DB "e1" = getUserByPathId w10DB "nonsense" ∧
    (getUserByPathId w10DB "e1").1 =
      some [("_id", "d1"), ("email", "dave@example.com")] ∧
    dget [("_id", "d1"), ("email", "dave@example.com")] "uid" = none :=
  ⟨(getUserByPath_ignores_path_id w10DB "e1" "nonsense").1,
    by decide,
    (getUserByPath_ignores_path_id w10DB "e1" "nonsense").2.1
      [("_id", "d1"), ("email", "dave@example.com")] (by decide)⟩
